import Mathlib

set_option maxRecDepth 16384

/-!
Verification development for the chart-extraction core of the bill-OCR
repository (the Tesseract-based `processChart` service).  The definitions
below are a shallow embedding of the TypeScript source: pixel coordinates
and chart values are modelled as exact rationals `ℚ`, JavaScript strings as
Lean `String`, and the stable `Array.prototype.sort` as Mathlib's stable
`List.insertionSort`.  Fallible code (`throw`) is modelled with `Except`.
-/

namespace BillOcr

/-- A bounding box `{x0, y0, x1, y1}` in pixel coordinates (y grows
downward), as produced by the OCR engine. -/
structure Bbox where
  x0 : ℚ
  y0 : ℚ
  x1 : ℚ
  y1 : ℚ
deriving DecidableEq

/-- An OCR word: `{ text, bbox, confidence }`. -/
structure OcrWord where
  text : String
  bbox : Bbox
  confidence : ℚ
deriving DecidableEq

/-- Default word used for JavaScript indexing of lists whose non-emptiness
is guaranteed by a guard in the source (`arr[0]`, `arr[arr.length-1]`). -/
def wDefault : OcrWord := ⟨"", ⟨0, 0, 0, 0⟩, 0⟩

instance : Inhabited OcrWord := ⟨wDefault⟩

/-! ### JavaScript string primitives

The source uses `toLowerCase`, `replace`, `startsWith`, `includes`,
`parseFloat` and `parseInt`.  We model them over the character ranges the
program can meet (Basic Latin and Latin-1): `toLowerCase` adds 32 to an
uppercase code point of those blocks, exactly as Unicode simple lowercase
mapping does there. -/

/-- Model of `String.prototype.toLowerCase` on one character, for the
Basic Latin (`A`–`Z`) and Latin-1 (`À`–`Þ` except `×`) blocks; every other
character is unchanged. -/
def jsToLower (c : Char) : Char :=
  if (65 ≤ c.toNat ∧ c.toNat ≤ 90) ∨
     (192 ≤ c.toNat ∧ c.toNat ≤ 222 ∧ c.toNat ≠ 215) then
    Char.ofNat (c.toNat + 32)
  else c

/-- Model of `String.prototype.toLowerCase`. -/
def jsToLowerStr (s : String) : String := ⟨s.data.map jsToLower⟩

/-- Model of `text.replace(/[^a-z]/g, '')`: keep only the characters
`a`–`z`. -/
def keepAZ (s : String) : String :=
  ⟨s.data.filter (fun c => decide (97 ≤ c.toNat) && decide (c.toNat ≤ 122))⟩

/-- `word.text.toLowerCase().replace(/[^a-z]/g, '')` — the cleaned,
alphabetic-only lowercase form used by `isMonth`. -/
def cleanText (s : String) : String := keepAZ (jsToLowerStr s)

/-- Model of `String.prototype.startsWith`: the second string is a prefix
of the first. -/
def jsStartsWith (s pre : String) : Bool := pre.data.isPrefixOf s.data

/-- Model of `text.replace(/,/g, '')`. -/
def removeCommas (s : String) : String := ⟨s.data.filter (fun c => c != ',')⟩

/-- The whitespace characters skipped by `parseFloat` / `parseInt`. -/
def isJsWhitespace (c : Char) : Bool :=
  c == ' ' || c == '\t' || c == '\n' || c == '\r' || c == '\x0b' || c == '\x0c'

/-- Numeric value of a list of decimal digit characters. -/
def digitsVal (l : List Char) : ℕ :=
  l.foldl (fun acc c => acc * 10 + (c.toNat - 48)) 0

/-- Model of `!isNaN(parseFloat(s))`: after optional whitespace and an
optional sign, the text starts with a digit, with a decimal point followed
by a digit, or with `Infinity`. -/
def jsParseFloatSucceeds (s : String) : Bool :=
  let t := s.data.dropWhile isJsWhitespace
  let rest := match t with
    | '-' :: r => r
    | '+' :: r => r
    | r => r
  (match rest with
   | c :: r => c.isDigit || (c == '.' && (r.headD 'x').isDigit)
   | [] => false) || "Infinity".data.isPrefixOf rest

/-- Model of `parseInt(s, 10)`: skip whitespace, read an optional sign and
the longest run of decimal digits; `none` models the `NaN` result. -/
def jsParseInt (s : String) : Option ℤ :=
  let t := s.data.dropWhile isJsWhitespace
  let signRest : ℤ × List Char := match t with
    | '-' :: r => (-1, r)
    | '+' :: r => (1, r)
    | r => (1, r)
  let ds := signRest.2.takeWhile Char.isDigit
  if ds.isEmpty then none else some (signRest.1 * (digitsVal ds : ℤ))

/-! ### Text classification (`isMonth`, `isNumber`, `isYear`, `isUnit`) -/

/-- `MONTHS = ['jan', ..., 'dec']`. -/
def MONTHS : List String :=
  ["jan", "feb", "mar", "apr", "may", "jun",
   "jul", "aug", "sep", "oct", "nov", "dec"]

/-- `isMonth`: some canonical abbreviation starts with the cleaned text. -/
def isMonth (word : OcrWord) : Bool :=
  MONTHS.any (fun m => jsStartsWith m (cleanText word.text))

/-- `isNumber`: `!isNaN(parseFloat(word.text.replace(/,/g, '')))`. -/
def isNumber (word : OcrWord) : Bool :=
  jsParseFloatSucceeds (removeCommas word.text)

/-- `isYear`: `/^\d{4}$/.test(word.text)`. -/
def isYear (word : OcrWord) : Bool :=
  word.text.data.length == 4 && word.text.data.all Char.isDigit

/-- `isUnit`: `['kwh', 'mÂ³', 'therms'].includes(word.text.toLowerCase())`.
The second vocabulary entry is copied byte-for-byte from the source, where
the intended `m³` appears double-encoded as `mÂ³`. -/
def isUnit (word : OcrWord) : Bool :=
  ["kwh", "mÂ³", "therms"].contains (jsToLowerStr word.text)

/-! ### Geometric analysis utilities -/

/-- A 2-D point. -/
structure Point where
  x : ℚ
  y : ℚ
deriving DecidableEq

/-- `getCenter(bbox)`. -/
def getCenter (b : Bbox) : Point :=
  ⟨(b.x0 + b.x1) / 2, (b.y0 + b.y1) / 2⟩

/-- `isHorizontallyAligned(word1, word2, tolerance)` (default 10). -/
def isHorizontallyAligned (w1 w2 : OcrWord) (tolerance : ℚ) : Bool :=
  decide (|(getCenter w1.bbox).y - (getCenter w2.bbox).y| < tolerance)

/-- `isVerticallyAligned(word1, word2, tolerance)` (default 15). -/
def isVerticallyAligned (w1 w2 : OcrWord) (tolerance : ℚ) : Bool :=
  decide (|(getCenter w1.bbox).x - (getCenter w2.bbox).x| < tolerance)

/-- `distance(p1, p2) < r` for a radius `r > 0`.  The source compares
`Math.sqrt(dx*dx + dy*dy) < r`; since `Math.sqrt` is strictly monotone on
nonnegative reals this is equivalent to the square-free comparison used
here, which keeps the embedding inside `ℚ`. -/
def distLt (p1 p2 : Point) (r : ℚ) : Bool :=
  decide ((p2.x - p1.x) ^ 2 + (p2.y - p1.y) ^ 2 < r ^ 2)

/-- JavaScript's stable `Array.prototype.sort` with a numeric comparator
is a stable sort by the corresponding `≤` relation; Mathlib's
`List.insertionSort` is exactly such a stable sort. -/
def stableSortBy (r : OcrWord → OcrWord → Prop) [DecidableRel r]
    (l : List OcrWord) : List OcrWord :=
  l.insertionSort r

/-- Comparator `(a, b) => a.bbox.x0 - b.bbox.x0`. -/
def byX0 (a b : OcrWord) : Prop := a.bbox.x0 ≤ b.bbox.x0

/-- Comparator `(a, b) => b.bbox.y0 - a.bbox.y0` (descending `y0`). -/
def byY0Desc (a b : OcrWord) : Prop := b.bbox.y0 ≤ a.bbox.y0

instance : DecidableRel byX0 := fun _ _ => inferInstanceAs (Decidable (_ ≤ _))
instance : DecidableRel byY0Desc := fun _ _ => inferInstanceAs (Decidable (_ ≤ _))

instance : IsTotal OcrWord byX0 := ⟨fun a b => le_total a.bbox.x0 b.bbox.x0⟩
instance : IsTrans OcrWord byX0 := ⟨fun _ _ _ => le_trans⟩
instance : IsTotal OcrWord byY0Desc := ⟨fun a b => le_total b.bbox.y0 a.bbox.y0⟩
instance : IsTrans OcrWord byY0Desc := ⟨fun _ _ _ h h' => le_trans h' h⟩

/-! ### Chart candidate discovery -/

/-- `ChartCandidate`. -/
structure ChartCandidate where
  id : ℕ
  months : List OcrWord
  yAxis : List OcrWord
  legend : List OcrWord
  title : List OcrWord
  unit : Option OcrWord
  bounds : Bbox
deriving DecidableEq

instance : Inhabited ChartCandidate := ⟨⟨0, [], [], [], [], none, ⟨0, 0, 0, 0⟩⟩⟩

/-- One iteration of the outer loop of `findChartCandidates`: `m` is
`potentialMonths[i]`, `rest` the words after it, `candidates` the
accumulator.  Pushes at most one new candidate. -/
def stepCandidates (potentialYAxis potentialLegends potentialUnits : List OcrWord)
    (candidates : List ChartCandidate) (m : OcrWord) (rest : List OcrWord) :
    List ChartCandidate :=
  let monthGroup := m :: rest.filter (fun w => isHorizontallyAligned m w 10)
  if 3 < monthGroup.length ∧ ¬ (candidates.any (fun c => c.months.contains m)) then
    let sortedMonths := stableSortBy byX0 monthGroup
    let avgY := (sortedMonths.map (fun w => (getCenter w.bbox).y)).sum /
                (sortedMonths.length : ℚ)
    let minX := (sortedMonths.headD wDefault).bbox.x0
    let maxX := (sortedMonths.getLastD wDefault).bbox.x1
    let associatedYAxis := potentialYAxis.filter (fun y =>
      isVerticallyAligned y (sortedMonths.headD wDefault) 30 &&
      decide (y.bbox.x1 < minX))
    if 1 < associatedYAxis.length then
      let bounds : Bbox :=
        ⟨(associatedYAxis.headD wDefault).bbox.x0,
         (associatedYAxis.getLastD wDefault).bbox.y0,
         maxX, avgY⟩
      let chartCenter : Point := ⟨(bounds.x0 + bounds.x1) / 2, (bounds.y0 + bounds.y1) / 2⟩
      let associatedLegend := potentialLegends.filter (fun l =>
        distLt (getCenter l.bbox) chartCenter 300)
      let associatedUnit := potentialUnits.find? (fun u =>
        distLt (getCenter u.bbox) ⟨bounds.x0, chartCenter.y⟩ 100)
      candidates ++ [⟨candidates.length, sortedMonths, associatedYAxis,
                      stableSortBy byX0 associatedLegend, [], associatedUnit, bounds⟩]
    else candidates
  else candidates

/-- The outer `for` loop of `findChartCandidates` over `potentialMonths`. -/
def findLoop (potentialYAxis potentialLegends potentialUnits : List OcrWord)
    (candidates : List ChartCandidate) : List OcrWord → List ChartCandidate
  | [] => candidates
  | m :: rest =>
      findLoop potentialYAxis potentialLegends potentialUnits
        (stepCandidates potentialYAxis potentialLegends potentialUnits candidates m rest)
        rest

/-- `findChartCandidates(words)` (the injected logger only emits trace
events and is dropped from the embedding). -/
def findChartCandidates (words : List OcrWord) : List ChartCandidate :=
  let potentialMonths := stableSortBy byX0 (words.filter isMonth)
  let potentialYAxis := stableSortBy byY0Desc (words.filter isNumber)
  let potentialLegends := words.filter isYear
  let potentialUnits := words.filter isUnit
  findLoop potentialYAxis potentialLegends potentialUnits [] potentialMonths

/-! ### Pixel analysis and bar detection (`detectBarsForChart`)

The browser-side image decoding and canvas plumbing are external
collaborators; the embedding receives the decoded RGBA buffer directly as
`ImageData`.  Out-of-range reads of a JavaScript `Uint8ClampedArray` yield
`undefined`, and `undefined < 240` is `false`; `uget`/`jsLtNum` reproduce
that. -/

/-- The decoded RGBA pixel buffer (`canvas.width`, `canvas.height`,
`imageData.data`). -/
structure ImageData where
  width : ℕ
  height : ℕ
  data : List ℕ
deriving DecidableEq

/-- Read `data[i]` with JavaScript typed-array semantics: out-of-range
(including negative) indices give `undefined`, modelled as `none`. -/
def uget (d : List ℕ) (i : ℤ) : Option ℕ :=
  if i < 0 then none else d.get? i.toNat

/-- `x < bound` where `x` may be `undefined`: any comparison with
`undefined` is `false` in JavaScript. -/
def jsLtNum (x : Option ℕ) (bound : ℕ) : Bool :=
  match x with
  | some v => decide (v < bound)
  | none => false

/-- `isDarkPixel(data, index)`: `r < 240 && g < 240 && b < 240`. -/
def isDarkPixel (data : List ℕ) (index : ℤ) : Bool :=
  jsLtNum (uget data index) 240 && jsLtNum (uget data (index + 1)) 240 &&
  jsLtNum (uget data (index + 2)) 240

/-- `Math.round`: round half toward positive infinity. -/
def jsRound (x : ℚ) : ℤ := ⌊x + 1 / 2⌋

/-- The only throw site of the embedded `detectBarsForChart`. -/
inductive DetectError where
  | insufficientAxis (chartId : ℕ)
deriving DecidableEq

/-- Decidable equality of `Except` values, componentwise. -/
def exceptDecEq {ε α : Type} [DecidableEq ε] [DecidableEq α] :
    DecidableEq (Except ε α) := fun x y =>
  match x, y with
  | .ok a, .ok b =>
      if h : a = b then .isTrue (congrArg _ h)
      else .isFalse (fun hh => h (Except.ok.inj hh))
  | .error a, .error b =>
      if h : a = b then .isTrue (congrArg _ h)
      else .isFalse (fun hh => h (Except.error.inj hh))
  | .ok _, .error _ => .isFalse (fun hh => Except.noConfusion hh)
  | .error _, .ok _ => .isFalse (fun hh => Except.noConfusion hh)

instance {ε α : Type} [DecidableEq ε] [DecidableEq α] : DecidableEq (Except ε α) :=
  exceptDecEq

/-- One parsed y-axis label: `{ value: parseInt(...), y: getCenter(bbox).y }`. -/
structure YVal where
  value : ℤ
  y : ℚ
deriving DecidableEq

instance : Inhabited YVal := ⟨⟨0, 0⟩⟩

/-- Comparator `(a, b) => a.value - b.value`. -/
def byValue (a b : YVal) : Prop := a.value ≤ b.value

instance : DecidableRel byValue := fun _ _ => inferInstanceAs (Decidable (_ ≤ _))
instance : IsTotal YVal byValue := ⟨fun a b => le_total a.value b.value⟩
instance : IsTrans YVal byValue := ⟨fun _ _ _ => le_trans⟩

/-- `chart.yAxis.map(...).filter(v => !isNaN(v.value))`: parse each label,
keeping only those whose text `parseInt`s. -/
def parsedYValues (yAxis : List OcrWord) : List YVal :=
  (yAxis.map (fun v => (jsParseInt (removeCommas v.text), (getCenter v.bbox).y))).filterMap
    (fun p => match p.1 with
      | some n => some ⟨n, p.2⟩
      | none => none)

/-- The parsed labels after `.sort((a, b) => a.value - b.value)`. -/
def sortedYValues (yAxis : List OcrWord) : List YVal :=
  (parsedYValues yAxis).insertionSort byValue

/-- The `yMin`/`yMax` anchors of the y-axis scale; the derived quantities
(`pixelRange`, `valueRange`, `valuePerPixel`, `zeroLineY`) are functions
of these two anchors, exactly as computed in the source. -/
structure Calib where
  yMin : YVal
  yMax : YVal
deriving DecidableEq

/-- `pixelRange = Math.abs(yMin.y - yMax.y)`. -/
def Calib.pixelRange (c : Calib) : ℚ := |c.yMin.y - c.yMax.y|

/-- `valueRange = yMax.value - yMin.value`. -/
def Calib.valueRange (c : Calib) : ℤ := c.yMax.value - c.yMin.value

/-- `valuePerPixel = valueRange / pixelRange`. -/
def Calib.valuePerPixel (c : Calib) : ℚ := (c.valueRange : ℚ) / c.pixelRange

/-- `zeroLineY = yMin.value === 0 ? yMin.y
                : yMax.y + ((yMax.value / valueRange) * pixelRange)`. -/
def Calib.zeroLineY (c : Calib) : ℚ :=
  if c.yMin.value = 0 then c.yMin.y
  else c.yMax.y + ((c.yMax.value : ℚ) / (c.valueRange : ℚ)) * c.pixelRange

/-- The y-axis calibration step of `detectBarsForChart`: throws
`Chart ${id} has insufficient Y-axis labels.` when fewer than two labels
parse; otherwise yields the first and last element of the value-sorted
list. -/
def calibrate (chart : ChartCandidate) : Except DetectError Calib :=
  let yValues := sortedYValues chart.yAxis
  if yValues.length < 2 then .error (.insufficientAxis chart.id)
  else .ok ⟨yValues.headD default, yValues.getLastD default⟩

/-- `numYears = Math.max(1, years.length)`. -/
def numYears (chart : ChartCandidate) : ℕ := max 1 chart.legend.length

/-- `barWidthGuess = (month.bbox.x1 - month.bbox.x0) / numYears`. -/
def barWidthGuess (month : OcrWord) (n : ℕ) : ℚ :=
  (month.bbox.x1 - month.bbox.x0) / (n : ℚ)

/-- `scanX = Math.round(month.bbox.x0 + (i * barWidthGuess) + (barWidthGuess / 2))`. -/
def scanXFor (month : OcrWord) (n : ℕ) (i : ℕ) : ℤ :=
  jsRound (month.bbox.x0 + (i : ℚ) * barWidthGuess month n + barWidthGuess month n / 2)

/-- The rows visited by `for (let y = Math.floor(zeroLineY); y > chartArea.y0; y--)`,
in visiting order: the integers from `⌊zeroLineY⌋` down to the least
integer strictly above `y0`. -/
def scanYs (zeroLineY y0 : ℚ) : List ℤ :=
  (List.range (⌊zeroLineY⌋ - ⌊y0⌋).toNat).map (fun k => ⌊zeroLineY⌋ - (k : ℤ))

/-- The inner scan loop: the first visited row whose pixel in column
`scanX` is dark (`barTopY`), or `none` when the loop falls through
(`barTopY === -1` in the source). -/
def barTopScan (data : List ℕ) (width : ℕ) (zeroLineY y0 : ℚ) (scanX : ℤ) : Option ℤ :=
  (scanYs zeroLineY y0).find?
    (fun y => isDarkPixel data ((y * (width : ℤ) + scanX) * 4))

/-- One `{ year, value }` record of `UsageChartData`. -/
structure UsageEntry where
  year : String
  value : ℤ
deriving DecidableEq

instance : Inhabited UsageEntry := ⟨⟨"", 0⟩⟩

/-- One `{ month, usage }` record of `UsageChartData`. -/
structure MonthUsage where
  month : String
  usage : List UsageEntry
deriving DecidableEq

instance : Inhabited MonthUsage := ⟨⟨"", []⟩⟩

/-- The externally visible result entity. -/
structure UsageChartData where
  title : String
  unit : String
  data : List MonthUsage
deriving DecidableEq

/-- The per-slot body of the bar-scanning loop: scan column `scanX` for
series slot `i` under `month`; a found top edge is converted through the
calibration law, a fully missed column records value `0`. -/
def slotEntry (img : ImageData) (cal : Calib) (years : List String)
    (month : OcrWord) (n : ℕ) (i : ℕ) : UsageEntry :=
  let scanX := scanXFor month n i
  let year := (years.get? i).getD ("Year " ++ toString (i + 1))
  match barTopScan img.data img.width cal.zeroLineY cal.yMax.y scanX with
  | some barTopY => ⟨year, jsRound ((cal.zeroLineY - (barTopY : ℚ)) * cal.valuePerPixel)⟩
  | none => ⟨year, 0⟩

/-- The assembly of the final `UsageChartData` from a calibrated candidate:
the month × series scan table, the joined title with its numbered
fallback, and the unit token with its placeholder fallback (JavaScript
`||` falls back exactly on the empty string here). -/
def assembleChart (img : ImageData) (chart : ChartCandidate) (cal : Calib) :
    UsageChartData :=
  let years := chart.legend.map (fun l => l.text)
  let n := numYears chart
  let usageData := chart.months.map (fun month =>
    MonthUsage.mk month.text ((List.range n).map (fun i => slotEntry img cal years month n i)))
  let joined := String.intercalate " " (chart.title.map (fun t => t.text))
  { title := if joined = "" then "Usage Chart " ++ toString chart.id else joined
    unit := match chart.unit with
            | some u => if u.text = "" then "Units" else u.text
            | none => "Units"
    data := usageData }

/-- `detectBarsForChart(imageB64, chart)`: calibrate the y-axis, then scan
one column per month and per legend-series slot. -/
def detectBarsForChart (img : ImageData) (chart : ChartCandidate) :
    Except DetectError UsageChartData :=
  match calibrate chart with
  | .error e => .error e
  | .ok cal => .ok (assembleChart img chart cal)

/-! ### The exported `processChart` orchestrator -/

/-- `Pass 3` of `processChart`: the `for` loop over candidates whose body
is a per-candidate `try/catch` — a failing candidate is logged and
omitted, the loop continues. -/
def processCandidates (img : ImageData) : List ChartCandidate → List UsageChartData
  | [] => []
  | c :: rest =>
    match detectBarsForChart img c with
    | .ok d => d :: processCandidates img rest
    | .error _ => processCandidates img rest

/-- `processChart(imageB64)`: the engine stages are external
collaborators, so the embedding takes their outcomes as `Except` inputs,
and a `.error` result models an uncaught throw to the caller.  The control
flow of the source is: `await Tesseract.createWorker(...)` runs *before*
the `try`, so its rejection propagates uncaught and the `finally` never
runs; inside the `try`, the OCR pass and the candidate loop run, and any
failure there is caught and turned into `[]` (an empty candidate list also
returns `[]`, which coincides with `processCandidates img [] = []`); the
`finally` block then awaits `worker.terminate()`, whose rejection also
propagates, replacing the try/catch outcome. -/
def processChart (workerCreation : Except String Unit)
    (ocrResult : Except String (List OcrWord))
    (terminateResult : Except String Unit) (img : ImageData) :
    Except String (List UsageChartData) :=
  match workerCreation with
  | .error e => .error e
  | .ok _ =>
    let caught : List UsageChartData :=
      match ocrResult with
      | .error _ => []
      | .ok words => processCandidates img (findChartCandidates words)
    match terminateResult with
    | .error e => .error e
    | .ok _ => .ok caught

/-! ### Concrete inputs used by witnesses and counterexamples -/

/-- Build an `OcrWord` with a fixed confidence. -/
def mkWord (t : String) (x0 y0 x1 y1 : ℚ) : OcrWord := ⟨t, ⟨x0, y0, x1, y1⟩, 90⟩

/-- A page with one four-month axis row and two numeric labels to its
left. -/
def w0C4 : OcrWord := mkWord "0" 85 95 95 105
def w500C4 : OcrWord := mkWord "500" 85 45 95 55
def m1C4 : OcrWord := mkWord "Jan" 100 200 120 210
def m2C4 : OcrWord := mkWord "Feb" 130 200 150 210
def m3C4 : OcrWord := mkWord "Mar" 160 200 180 210
def m4C4 : OcrWord := mkWord "Apr" 190 200 210 210
def wordsC4 : List OcrWord := [w0C4, w500C4, m1C4, m2C4, m3C4, m4C4]

/-- The candidate that `findChartCandidates` discovers on `wordsC4`. -/
def candC4 : ChartCandidate :=
  ⟨0, [m1C4, m2C4, m3C4, m4C4], [w0C4, w500C4], [], [], none, ⟨85, 45, 210, 205⟩⟩

/-- Two stray month-word groups whose alignment bands overlap on three
shared words: `aC5` (row center y=100) and `bC5` (y=115) each align with
the three words at y=107, but not with each other.  Each group gets its
own pair of numeric labels to its left. -/
def n1C5 : OcrWord := mkWord "100" 85 40 95 50
def n2C5 : OcrWord := mkWord "500" 85 60 95 70
def n3C5 : OcrWord := mkWord "200" 115 40 125 50
def n4C5 : OcrWord := mkWord "600" 115 60 125 70
def aC5 : OcrWord := mkWord "Jan" 100 95 120 105
def bC5 : OcrWord := mkWord "Feb" 130 110 150 120
def s1C5 : OcrWord := mkWord "Mar" 160 102 180 112
def s2C5 : OcrWord := mkWord "Apr" 190 102 210 112
def s3C5 : OcrWord := mkWord "May" 220 102 240 112
def wordsC5 : List OcrWord :=
  [n1C5, n2C5, n3C5, n4C5, aC5, bC5, s1C5, s2C5, s3C5]

/-- The two candidates discovered on `wordsC5`, taken directly from the
computation. -/
def candAC5 : ChartCandidate := (findChartCandidates wordsC5).getD 0 default
def candBC5 : ChartCandidate := (findChartCandidates wordsC5).getD 1 default

/-- An inverted axis-label pair: the maximum-value label (`500`, pixel
center y=300) sits *below* the minimum-value label (`0`, y=100). -/
def wMinC1 : OcrWord := mkWord "0" 85 95 95 105
def wMaxC1 : OcrWord := mkWord "500" 85 295 95 305
def candC1bad : ChartCandidate :=
  ⟨0, [m1C4, m2C4, m3C4, m4C4], [wMinC1, wMaxC1], [], [], none, ⟨0, 0, 0, 0⟩⟩

/-- The calibration computed on `candC1bad`. -/
def calC1bad : Calib := ⟨⟨0, 100⟩, ⟨500, 300⟩⟩

/-- The spec scenario for the zero line: labels `100` at pixel y=300 and
`500` at y=100. -/
def wMinC2 : OcrWord := mkWord "100" 85 295 95 305
def wMaxC2 : OcrWord := mkWord "500" 85 95 95 105
def candC2 : ChartCandidate :=
  ⟨0, [m1C4, m2C4, m3C4, m4C4], [wMinC2, wMaxC2], [], [], none, ⟨0, 0, 0, 0⟩⟩

/-- The calibration computed on `candC2`. -/
def calC2 : Calib := ⟨⟨100, 300⟩, ⟨500, 100⟩⟩

/-- A candidate whose two y-axis labels both read `0` (duplicate-valued
labels, pixel centers y=30 and y=20). -/
def z1C3 : OcrWord := mkWord "0" 85 25 95 35
def z2C3 : OcrWord := mkWord "0" 85 15 95 25
def candDup : ChartCandidate :=
  ⟨0, [m1C4, m2C4, m3C4, m4C4], [z1C3, z2C3], [], [], none, ⟨0, 0, 0, 0⟩⟩

/-- A pixel buffer with no dark pixel anywhere (every read is
`undefined`, hence classified not-dark, as for any all-background
region). -/
def imgBlank : ImageData := ⟨10, 10, []⟩

/-- A well-formed candidate scanned over the blank buffer: labels `0` at
pixel center y=30 and `500` at y=20. -/
def v0C6 : OcrWord := mkWord "0" 85 25 95 35
def v500C6 : OcrWord := mkWord "500" 85 15 95 25
def candC6 : ChartCandidate :=
  ⟨0, [m1C4, m2C4, m3C4, m4C4], [v0C6, v500C6], [], [], none, ⟨0, 0, 0, 0⟩⟩

/-- The calibration computed on `candC6`. -/
def calC6 : Calib := ⟨⟨0, 30⟩, ⟨500, 20⟩⟩

/-- The scan result for `candC6` over the blank buffer. -/
def outC6 : UsageChartData := assembleChart imgBlank candC6 calC6

/-- The first month row and first series slot of `outC6`. -/
def muC6 : MonthUsage := outC6.data.headD default
def eC6 : UsageEntry := muC6.usage.headD default

/-- A candidate with no y-axis labels at all: measuring it always fails
with the insufficient-axis error. -/
def candFailC7 : ChartCandidate := ⟨3, [m1C4], [], [], [], none, ⟨0, 0, 0, 0⟩⟩

/-- The successful measurement of `candC6` over the blank buffer. -/
def okC7data : UsageChartData := assembleChart imgBlank candC6 calC6

/-- A single five-month row `Jan..May` whose leading word `mAb` owns the
whole row; the numeric pair `n1b`/`n2b` sits strictly left of `mAb`, the
pair `n3b`/`n4b` sits in the gap strictly left of `mBb`. -/
def mAb : OcrWord := mkWord "Jan" 100 95 120 105
def mBb : OcrWord := mkWord "Feb" 130 95 150 105
def mCb : OcrWord := mkWord "Mar" 160 95 180 105
def mDb : OcrWord := mkWord "Apr" 190 95 210 105
def mEb : OcrWord := mkWord "May" 220 95 240 105
def n1b : OcrWord := mkWord "100" 85 40 95 50
def n2b : OcrWord := mkWord "500" 85 60 95 70
def n3b : OcrWord := mkWord "200" 115 40 125 50
def n4b : OcrWord := mkWord "600" 115 60 125 70
def wordsC4b : List OcrWord :=
  [n1b, n2b, n3b, n4b, mAb, mBb, mCb, mDb, mEb]

/-- The month group the loop builds when it reaches `mBb` (the words after
it in the x-sorted order are `mCb`, `mDb`, `mEb`). -/
def bGroupC4 : List OcrWord :=
  mBb :: [mCb, mDb, mEb].filter (fun w => isHorizontallyAligned mBb w 10)

/-- The y-axis labels the loop would associate to that group, computed by
the code's own filter over the sorted numeric words of `wordsC4b`. -/
def bLabelsC4 : List OcrWord :=
  (stableSortBy byY0Desc (wordsC4b.filter isNumber)).filter (fun y =>
    isVerticallyAligned y ((stableSortBy byX0 bGroupC4).headD wDefault) 30 &&
    decide (y.bbox.x1 < ((stableSortBy byX0 bGroupC4).headD wDefault).bbox.x0))

end BillOcr

open BillOcr

/-! ## Word classifier claims -/

/-- C8 (counterexample): the word `"ja"`, whose alphabetic-only lowercase
form has length 2, is nevertheless classified as a month label, so the
claimed minimum length of 3 does not hold on the code. -/
theorem isMonth_accepts_short_form :
    isMonth (OcrWord.mk "ja" ⟨0, 0, 0, 0⟩ 90) = true ∧
    (cleanText "ja").length = 2 ∧ ¬ 3 ≤ (cleanText "ja").length := by
  decide

/-- C8 (amended): `isMonth` classifies a word as a month label exactly
when its alphabetic-only lowercase form is a prefix of (or equal to) one
of the 12 canonical three-letter month abbreviations; no minimum length is
enforced, so forms shorter than 3 characters (even the empty form) are
accepted. -/
theorem isMonth_characterization (w : OcrWord) :
    isMonth w = true ↔
    ∃ m, m ∈ MONTHS ∧ (cleanText w.text).data.isPrefixOf m.data = true := by
  simp [isMonth, jsStartsWith, List.any_eq_true]

/-- C9: the unit vocabulary of `isUnit` contains the double-encoded
`"mÂ³"` instead of `"m³"`, so the token `m³` is never classified as a
unit, in any letter case, while the other vocabulary entries behave as
specified. -/
theorem isUnit_rejects_cubic_meters :
    isUnit (OcrWord.mk "m³" ⟨0, 0, 0, 0⟩ 90) = false ∧
    isUnit (OcrWord.mk "M³" ⟨0, 0, 0, 0⟩ 90) = false ∧
    isUnit (OcrWord.mk "kWh" ⟨0, 0, 0, 0⟩ 90) = true ∧
    isUnit (OcrWord.mk "THERMS" ⟨0, 0, 0, 0⟩ 90) = true := by
  decide

/-- C10: a word with no Latin letter (lowercased) cleans to the empty
string, and the empty string is a prefix of every canonical month
abbreviation, so `isMonth` classifies every such word as a month label. -/
theorem isMonth_accepts_letterless_words (w : OcrWord)
    (h : ∀ c ∈ w.text.data,
      ¬(97 ≤ (jsToLower c).toNat ∧ (jsToLower c).toNat ≤ 122)) :
    isMonth w = true := by
  have hclean : cleanText w.text = "" := by
    have hnil : (jsToLowerStr w.text).data.filter
        (fun c => decide (97 ≤ c.toNat) && decide (c.toNat ≤ 122)) = [] := by
      rw [List.filter_eq_nil_iff]
      intro a ha
      simp only [jsToLowerStr, List.mem_map] at ha
      obtain ⟨c, hc, rfl⟩ := ha
      simpa using h c hc
    simp only [cleanText, keepAZ, hnil]
  rw [isMonth, hclean]
  decide

/-- C10 (witness): the purely numeric token `"123%"`. -/
theorem isMonth_accepts_letterless_words_witness :
    (∀ c ∈ (OcrWord.mk "123%" ⟨0, 0, 0, 0⟩ 90).text.data,
      ¬(97 ≤ (jsToLower c).toNat ∧ (jsToLower c).toNat ≤ 122)) ∧
    isMonth (OcrWord.mk "123%" ⟨0, 0, 0, 0⟩ 90) = true :=
  ⟨by decide, isMonth_accepts_letterless_words _ (by decide)⟩

/-! ## Axis calibration claims -/

/-- C1 (counterexample): on the inverted axis `candC1bad` (two distinct
numeric values, but the maximum-value label printed *below* the
minimum-value label) the calibration law does not map the pixel of the
maximum label back to `valueMax`: it yields `-500` instead of `500`. -/
theorem calibration_roundtrip_fails_inverted_axis :
    calibrate candC1bad = .ok calC1bad ∧
    calC1bad.yMin.value < calC1bad.yMax.value ∧
    0 < calC1bad.valuePerPixel ∧
    ¬((calC1bad.zeroLineY - calC1bad.yMax.y) * calC1bad.valuePerPixel =
      (calC1bad.yMax.value : ℚ)) := by
  with_unfolding_all decide

/-- C1 (amended): for every calibration produced by the calibration step
from labels with two distinct numeric values *and* with the minimum-value
label printed below the maximum-value label (the normal orientation of a
y-axis, y growing downward), `valuePerPixel` is strictly positive and the
affine law `value(y) = (zeroLineY - y) * valuePerPixel` maps the anchor
pixels back to `valueMax` and `valueMin` exactly. -/
theorem calibration_roundtrip (chart : ChartCandidate) (cal : Calib)
    (_hcal : calibrate chart = .ok cal)
    (hv : cal.yMin.value < cal.yMax.value)
    (hy : cal.yMax.y < cal.yMin.y) :
    0 < cal.valuePerPixel ∧
    (cal.zeroLineY - cal.yMax.y) * cal.valuePerPixel = (cal.yMax.value : ℚ) ∧
    (cal.zeroLineY - cal.yMin.y) * cal.valuePerPixel = (cal.yMin.value : ℚ) := by
  clear _hcal
  obtain ⟨⟨a, p⟩, ⟨b, q⟩⟩ := cal
  simp only [Calib.valuePerPixel, Calib.zeroLineY, Calib.valueRange,
    Calib.pixelRange] at hv hy ⊢
  have hpq : (0 : ℚ) < p - q := by linarith
  have habs : |p - q| = p - q := abs_of_pos hpq
  have hba : (0 : ℚ) < (b : ℚ) - (a : ℚ) := by
    have : (a : ℚ) < (b : ℚ) := by exact_mod_cast hv
    linarith
  have hpq0 : p - q ≠ 0 := ne_of_gt hpq
  have hba0 : (b : ℚ) - (a : ℚ) ≠ 0 := ne_of_gt hba
  refine ⟨?_, ?_, ?_⟩
  · rw [habs]
    push_cast
    exact div_pos hba hpq
  · by_cases h0 : a = 0
    · subst h0
      rw [if_pos rfl, habs]
      push_cast
      field_simp
    · rw [if_neg h0, habs]
      push_cast
      field_simp
      ring
  · by_cases h0 : a = 0
    · subst h0
      rw [if_pos rfl, habs]
      push_cast
      ring
    · rw [if_neg h0, habs]
      push_cast
      field_simp
      ring

/-- C1 (witness): the normally oriented axis of `candC2` (`100` at pixel
y=300, `500` at y=100). -/
theorem calibration_roundtrip_witness :
    calibrate candC2 = .ok calC2 ∧
    calC2.yMin.value < calC2.yMax.value ∧ calC2.yMax.y < calC2.yMin.y ∧
    (0 < calC2.valuePerPixel ∧
     (calC2.zeroLineY - calC2.yMax.y) * calC2.valuePerPixel = (calC2.yMax.value : ℚ) ∧
     (calC2.zeroLineY - calC2.yMin.y) * calC2.valuePerPixel = (calC2.yMin.value : ℚ)) := by
  refine ⟨by with_unfolding_all decide, by decide, by with_unfolding_all decide, ?_⟩
  exact calibration_roundtrip candC2 calC2 (by with_unfolding_all decide)
    (by decide) (by with_unfolding_all decide)

/-- C2 (counterexample): on the spec scenario axis (`100` at y=300, `500`
at y=100) the computed zero line is at pixel y=350, not at the claimed
y=340. -/
theorem zeroLine_not_at_340 :
    calibrate candC2 = .ok calC2 ∧ calC2.zeroLineY = 350 ∧
    ¬ calC2.zeroLineY = 340 := by
  with_unfolding_all decide

/-- C2 (amended): on the axis `{100: y=300, 500: y=100}` the zero line is
extrapolated below y=300, to pixel y=350; in general the code computes
`zeroLineY = pixelAtMax + valueMax / valuePerPixel` whenever the minimum
label value is nonzero, and `zeroLineY = pixelAtMin` when it is zero. -/
theorem zeroLine_extrapolation :
    (calibrate candC2 = .ok calC2 ∧ calC2.zeroLineY = 350 ∧
      300 < calC2.zeroLineY) ∧
    (∀ cal : Calib, cal.yMin.value ≠ 0 →
      cal.zeroLineY = cal.yMax.y + (cal.yMax.value : ℚ) / cal.valuePerPixel) ∧
    (∀ cal : Calib, cal.yMin.value = 0 → cal.zeroLineY = cal.yMin.y) := by
  refine ⟨by with_unfolding_all decide, ?_, ?_⟩
  · intro cal h0
    simp only [Calib.zeroLineY, Calib.valuePerPixel, if_neg h0]
    rw [div_div_eq_mul_div, div_mul_eq_mul_div]
  · intro cal h0
    simp [Calib.zeroLineY, h0]

/-- C2 (witness): the nonzero-floor branch applied to `calC2`. -/
theorem zeroLine_extrapolation_witness :
    calC2.yMin.value ≠ 0 ∧
    calC2.zeroLineY = calC2.yMax.y + (calC2.yMax.value : ℚ) / calC2.valuePerPixel :=
  ⟨by decide, zeroLine_extrapolation.2.1 calC2 (by decide)⟩

/-- C3 (counterexample): a candidate with two y-axis labels that both
parse to the same value `0` is *not* rejected: `detectBarsForChart`
returns a normal `UsageChartData` result instead of raising the
insufficient-axis error. -/
theorem duplicate_labels_not_rejected :
    2 ≤ candDup.yAxis.length ∧
    (sortedYValues candDup.yAxis).map YVal.value = [0, 0] ∧
    (detectBarsForChart imgBlank candDup).isOk = true := by
  with_unfolding_all decide

/-- C3 (amended): `detectBarsForChart` raises its insufficient-Y-axis
error exactly when fewer than two of the candidate's y-axis words parse as
numbers; duplicate-valued labels are not detected, so a candidate whose
two or more labels parse to one and the same value passes the guard and is
processed. -/
theorem insufficient_axis_iff_lt_two_parsed (img : ImageData)
    (chart : ChartCandidate) :
    detectBarsForChart img chart = .error (.insufficientAxis chart.id) ↔
    (parsedYValues chart.yAxis).length < 2 := by
  have hlen : (sortedYValues chart.yAxis).length = (parsedYValues chart.yAxis).length :=
    List.length_insertionSort _ _
  unfold detectBarsForChart calibrate
  by_cases h : (sortedYValues chart.yAxis).length < 2
  · rw [if_pos h]
    simp [hlen ▸ h]
  · rw [if_neg h]
    simp only [hlen] at h
    simp [h]

/-! ## Candidate discovery claims -/

/-- Each loop iteration either leaves the accumulator unchanged or appends
one candidate built from the current month group; an appended candidate
has more than 3 months, at least 2 y-axis labels, months equal to the
sorted month group, and a seed word owned by no earlier candidate. -/
theorem stepCandidates_eq_or_append
    (pY pL pU : List OcrWord) (acc : List ChartCandidate)
    (m : OcrWord) (rest : List OcrWord) :
    stepCandidates pY pL pU acc m rest = acc ∨
    ∃ c, stepCandidates pY pL pU acc m rest = acc ++ [c] ∧
      3 < c.months.length ∧ 2 ≤ c.yAxis.length ∧
      c.months = stableSortBy byX0
        (m :: rest.filter (fun w => isHorizontallyAligned m w 10)) ∧
      ∀ c' ∈ acc, m ∉ c'.months := by
  dsimp only [stepCandidates]
  split_ifs with h1 h2
  · right
    refine ⟨_, rfl, ?_, ?_, rfl, ?_⟩
    · rw [stableSortBy, List.length_insertionSort]
      exact h1.1
    · exact h2
    · intro c' hc' hm
      apply h1.2
      rw [List.any_eq_true]
      refine ⟨c', hc', ?_⟩
      rw [List.contains, List.elem_iff]
      exact hm
  · left; rfl
  · left; rfl

/-- The loop preserves the size invariants of the accumulated
candidates. -/
theorem findLoop_sizes (pY pL pU : List OcrWord) (pm : List OcrWord) :
    ∀ acc, (∀ c ∈ acc, 3 < c.months.length ∧ 2 ≤ c.yAxis.length) →
      ∀ c ∈ findLoop pY pL pU acc pm, 3 < c.months.length ∧ 2 ≤ c.yAxis.length := by
  induction pm with
  | nil => intro acc h; simpa [findLoop] using h
  | cons m rest ih =>
      intro acc h
      rw [findLoop]
      apply ih
      rcases stepCandidates_eq_or_append pY pL pU acc m rest with
        heq | ⟨c, heq, h3, h2, _, _⟩
      · rw [heq]; exact h
      · rw [heq]
        intro c' hc'
        rcases List.mem_append.mp hc' with h' | h'
        · exact h c' h'
        · rw [List.mem_singleton] at h'
          subst h'
          exact ⟨h3, h2⟩

/-- C4 (counterexample): on `wordsC4b` the group seeded at `mBb` has size
4, all its words are horizontally aligned, and it has exactly 2
associated, strictly-left y-axis labels parsing to the distinct numbers
600 and 200 — yet it yields no candidate: its leading word `mBb` was
already absorbed by the earlier five-month candidate, so the ownership
guard discards the group.  The only candidate on the page is the
five-month one. -/
theorem group_with_two_labels_not_accepted :
    bGroupC4.length = 4 ∧
    bGroupC4.all (fun w => isHorizontallyAligned mBb w 10) = true ∧
    bLabelsC4.length = 2 ∧
    bLabelsC4.map (fun w => jsParseInt (removeCommas w.text)) =
      [some 600, some 200] ∧
    (findChartCandidates wordsC4b).map (fun c => c.months) =
      [[mAb, mBb, mCb, mDb, mEb]] ∧
    (findChartCandidates wordsC4b).filter
      (fun c => decide (c.months = stableSortBy byX0 bGroupC4)) = [] := by
  with_unfolding_all decide

/-- C4 (amended): every candidate returned by `findChartCandidates` has
strictly more than 3 month words and at least 2 y-axis labels (so a group
of size 3 or fewer, or with exactly 1 associated label, never yields a
candidate); whenever the loop considers a month word `m` whose alignment
group has size greater than 3, whose leading word `m` is *not already
owned by an earlier candidate*, and whose associated strictly-left y-axis
label set has at least 2 elements, it appends exactly one candidate whose
months are the sorted group and whose y-axis is that label set; and on the
concrete page `wordsC4` exactly one candidate is produced, with 4 months
and 2 y-axis labels. -/
theorem candidate_min_sizes :
    (∀ (words : List OcrWord) (c : ChartCandidate),
      c ∈ findChartCandidates words → 3 < c.months.length ∧ 2 ≤ c.yAxis.length) ∧
    (∀ (pY pL pU : List OcrWord) (acc : List ChartCandidate) (m : OcrWord)
        (rest : List OcrWord),
      3 < (m :: rest.filter (fun w => isHorizontallyAligned m w 10)).length →
      (∀ c' ∈ acc, m ∉ c'.months) →
      2 ≤ (pY.filter (fun y =>
        isVerticallyAligned y ((stableSortBy byX0
          (m :: rest.filter (fun w => isHorizontallyAligned m w 10))).headD wDefault) 30 &&
        decide (y.bbox.x1 < ((stableSortBy byX0
          (m :: rest.filter (fun w => isHorizontallyAligned m w 10))).headD
            wDefault).bbox.x0))).length →
      ∃ c, stepCandidates pY pL pU acc m rest = acc ++ [c] ∧
        c.months = stableSortBy byX0
          (m :: rest.filter (fun w => isHorizontallyAligned m w 10)) ∧
        c.yAxis = pY.filter (fun y =>
          isVerticallyAligned y ((stableSortBy byX0
            (m :: rest.filter (fun w => isHorizontallyAligned m w 10))).headD
              wDefault) 30 &&
          decide (y.bbox.x1 < ((stableSortBy byX0
            (m :: rest.filter (fun w => isHorizontallyAligned m w 10))).headD
              wDefault).bbox.x0))) ∧
    (findChartCandidates wordsC4).map (fun c => (c.months.length, c.yAxis.length)) =
      [(4, 2)] := by
  refine ⟨?_, ?_, ?_⟩
  · intro words c hc
    unfold findChartCandidates at hc
    exact findLoop_sizes _ _ _ _ [] (by intro c' hc'; cases hc') c hc
  · intro pY pL pU acc m rest h3 hown h2
    dsimp only [stepCandidates]
    rw [if_pos, if_pos]
    · exact ⟨_, rfl, rfl, rfl⟩
    · omega
    · refine ⟨h3, ?_⟩
      intro hany
      rw [List.any_eq_true] at hany
      obtain ⟨c', hc', hcon⟩ := hany
      rw [List.contains, List.elem_iff] at hcon
      exact hown c' hc' hcon
  · with_unfolding_all decide

/-- C4 (witness): the four-month page `wordsC4`, both for the invariant
and for the acceptance rule at its loop step (empty accumulator, seed
`m1C4`). -/
theorem candidate_min_sizes_witness :
    candC4 ∈ findChartCandidates wordsC4 ∧
    (3 < candC4.months.length ∧ 2 ≤ candC4.yAxis.length) ∧
    3 < (m1C4 :: [m2C4, m3C4, m4C4].filter
      (fun w => isHorizontallyAligned m1C4 w 10)).length ∧
    (∀ c' ∈ ([] : List ChartCandidate), m1C4 ∉ c'.months) ∧
    2 ≤ ([w0C4, w500C4].filter (fun y =>
      isVerticallyAligned y ((stableSortBy byX0 (m1C4 :: [m2C4, m3C4, m4C4].filter
        (fun w => isHorizontallyAligned m1C4 w 10))).headD wDefault) 30 &&
      decide (y.bbox.x1 < ((stableSortBy byX0 (m1C4 :: [m2C4, m3C4, m4C4].filter
        (fun w => isHorizontallyAligned m1C4 w 10))).headD wDefault).bbox.x0))).length ∧
    (∃ c, stepCandidates [w0C4, w500C4] [] [] [] m1C4 [m2C4, m3C4, m4C4] = [] ++ [c] ∧
      c.months = stableSortBy byX0 (m1C4 :: [m2C4, m3C4, m4C4].filter
        (fun w => isHorizontallyAligned m1C4 w 10)) ∧
      c.yAxis = [w0C4, w500C4].filter (fun y =>
        isVerticallyAligned y ((stableSortBy byX0 (m1C4 :: [m2C4, m3C4, m4C4].filter
          (fun w => isHorizontallyAligned m1C4 w 10))).headD wDefault) 30 &&
        decide (y.bbox.x1 < ((stableSortBy byX0 (m1C4 :: [m2C4, m3C4, m4C4].filter
          (fun w => isHorizontallyAligned m1C4 w 10))).headD wDefault).bbox.x0))) := by
  have hmem : candC4 ∈ findChartCandidates wordsC4 := by with_unfolding_all decide
  have h3 : 3 < (m1C4 :: [m2C4, m3C4, m4C4].filter
      (fun w => isHorizontallyAligned m1C4 w 10)).length := by
    with_unfolding_all decide
  have hown : ∀ c' ∈ ([] : List ChartCandidate), m1C4 ∉ c'.months := by
    intro c' hc'
    cases hc'
  have h2 : 2 ≤ ([w0C4, w500C4].filter (fun y =>
      isVerticallyAligned y ((stableSortBy byX0 (m1C4 :: [m2C4, m3C4, m4C4].filter
        (fun w => isHorizontallyAligned m1C4 w 10))).headD wDefault) 30 &&
      decide (y.bbox.x1 < ((stableSortBy byX0 (m1C4 :: [m2C4, m3C4, m4C4].filter
        (fun w => isHorizontallyAligned m1C4 w 10))).headD wDefault).bbox.x0))).length := by
    with_unfolding_all decide
  exact ⟨hmem, candidate_min_sizes.1 wordsC4 candC4 hmem, h3, hown, h2,
    candidate_min_sizes.2.1 [w0C4, w500C4] [] [] [] m1C4 [m2C4, m3C4, m4C4] h3 hown h2⟩

/-- C5 (counterexample): on `wordsC5` two candidates are produced whose
month sets share the word `s1C5` (and likewise `s2C5`, `s3C5`), so the
candidates' month sets are not pairwise disjoint. -/
theorem months_ownership_overlap :
    (findChartCandidates wordsC5).length = 2 ∧
    candAC5 ∈ findChartCandidates wordsC5 ∧
    candBC5 ∈ findChartCandidates wordsC5 ∧
    ¬ candAC5 = candBC5 ∧
    s1C5 ∈ candAC5.months ∧ s1C5 ∈ candBC5.months := by
  with_unfolding_all decide

/-- The loop preserves the seed-ownership property: the first month word
of every later candidate is owned by no earlier candidate. -/
theorem findLoop_seed_pairwise (pY pL pU : List OcrWord) (pm : List OcrWord) :
    ∀ acc, List.Pairwise byX0 pm →
      acc.Pairwise (fun c₁ c₂ => c₂.months.headD wDefault ∉ c₁.months) →
      (findLoop pY pL pU acc pm).Pairwise
        (fun c₁ c₂ => c₂.months.headD wDefault ∉ c₁.months) := by
  induction pm with
  | nil => intro acc _ hacc; simpa [findLoop] using hacc
  | cons m rest ih =>
      intro acc hsort hacc
      rw [findLoop]
      apply ih _ (List.Pairwise.of_cons hsort)
      rcases stepCandidates_eq_or_append pY pL pU acc m rest with
        heq | ⟨c, heq, _, _, hm, hnotin⟩
      · rw [heq]; exact hacc
      · rw [heq]
        refine List.pairwise_append.mpr ⟨hacc, List.pairwise_singleton _ _, ?_⟩
        intro c₁ h1 c₂ h2
        rw [List.mem_singleton] at h2
        subst h2
        have hhead : c₂.months.headD wDefault = m := by
          rw [hm, stableSortBy, List.insertionSort_cons]
          · rfl
          · intro b hb
            exact List.rel_of_pairwise_cons hsort (List.mem_of_mem_filter hb)
        rw [hhead]
        exact hnotin c₁ h1

/-- C5 (amended): the *seed* month word of each candidate (its first,
leftmost month word) never occurs among the month words of an earlier
candidate — the first-found group keeps its seed; but, as the
counterexample shows, two candidates may still share later (non-seed)
month words, so full pairwise disjointness of the month sets does not
hold. -/
theorem seed_month_not_reused (words : List OcrWord) :
    (findChartCandidates words).Pairwise
      (fun c₁ c₂ => c₂.months.headD wDefault ∉ c₁.months) := by
  unfold findChartCandidates
  apply findLoop_seed_pairwise
  · exact List.sorted_insertionSort byX0 _
  · exact List.Pairwise.nil

/-! ## Bar scanner claims -/

/-- C6: for any month index `mi` and series slot `si` of a successfully
calibrated candidate, if the scan column for that slot holds no dark pixel
anywhere between the zero line and the top of the chart area, then the
entry recorded for that slot has value `0` — the loop simply falls
through (`barTopY === -1`) without any error, and out-of-range pixel reads
(modelled in `uget`) merely read as not-dark. -/
theorem blank_column_records_zero
    (img : ImageData) (chart : ChartCandidate) (cal : Calib)
    (out : UsageChartData) (mi si : ℕ) (m : OcrWord) (mu : MonthUsage)
    (e : UsageEntry)
    (hcal : calibrate chart = .ok cal)
    (hout : detectBarsForChart img chart = .ok out)
    (hm : chart.months[mi]? = some m)
    (hmu : out.data[mi]? = some mu)
    (he : mu.usage[si]? = some e)
    (hblank : ∀ y ∈ scanYs cal.zeroLineY cal.yMax.y,
      isDarkPixel img.data
        ((y * (img.width : ℤ) + scanXFor m (numYears chart) si) * 4) = false) :
    e.value = 0 := by
  have hout' : out = assembleChart img chart cal := by
    unfold detectBarsForChart at hout
    rw [hcal] at hout
    exact (Except.ok.inj hout).symm
  subst hout'
  dsimp only [assembleChart] at hmu
  rw [List.getElem?_map, hm, Option.map_some'] at hmu
  have hmu' := (Option.some.inj hmu).symm
  subst hmu'
  dsimp only at he
  rw [List.getElem?_map] at he
  rcases Option.map_eq_some'.mp he with ⟨k, hk, hek⟩
  have hkn : si < numYears chart := by
    have := List.getElem?_eq_some.mp hk
    simpa [List.length_range] using this.1
  have hksi : k = si := by
    rw [List.getElem?_range hkn] at hk
    exact (Option.some.inj hk).symm
  rw [hksi] at hek
  subst hek
  dsimp only [slotEntry]
  have hnone : barTopScan img.data img.width cal.zeroLineY cal.yMax.y
      (scanXFor m (numYears chart) si) = none := by
    rw [barTopScan, List.find?_eq_none]
    intro y hy
    rw [hblank y hy]
    exact Bool.false_ne_true
  rw [hnone]

/-- C6 (witness): month 0, slot 0 of `candC6` over the blank buffer. -/
theorem blank_column_records_zero_witness :
    calibrate candC6 = .ok calC6 ∧
    detectBarsForChart imgBlank candC6 = .ok outC6 ∧
    candC6.months[0]? = some m1C4 ∧
    outC6.data[0]? = some muC6 ∧
    muC6.usage[0]? = some eC6 ∧
    (∀ y ∈ scanYs calC6.zeroLineY calC6.yMax.y,
      isDarkPixel imgBlank.data
        ((y * (imgBlank.width : ℤ) + scanXFor m1C4 (numYears candC6) 0) * 4) = false) ∧
    eC6.value = 0 := by
  refine ⟨?_, ?_, ?_, ?_, ?_, ?_, ?_⟩
  · with_unfolding_all decide
  · with_unfolding_all decide
  · with_unfolding_all decide
  · with_unfolding_all decide
  · with_unfolding_all decide
  · with_unfolding_all decide
  · exact blank_column_records_zero imgBlank candC6 calC6 outC6 0 0 m1C4 muC6 eC6
      (by with_unfolding_all decide) (by with_unfolding_all decide)
      (by with_unfolding_all decide) (by with_unfolding_all decide)
      (by with_unfolding_all decide) (by with_unfolding_all decide)

/-! ## Orchestrator claims -/

/-- C7 (counterexample): when the OCR worker cannot be created — the
spec's own "OCR engine unavailable" example — `processChart` does not
return an empty sequence: the rejection happens before the `try` block and
propagates to the caller as a thrown error. -/
theorem engine_failure_throws :
    processChart (.error "engine unavailable") (.ok []) (.ok ()) imgBlank =
      .error "engine unavailable" ∧
    ¬ processChart (.error "engine unavailable") (.ok []) (.ok ()) imgBlank =
      .ok [] := by
  decide

/-- C7 (amended): failures are contained at the smallest unit for
everything inside the `try` block.  A candidate whose measurement fails is
omitted while the surrounding candidates produce exactly the results they
would produce without it, and every successfully measured candidate's data
appears in the result; a failure raised inside the `try` (the OCR
recognition pass) is caught and yields the empty sequence.  But a failure
of the worker-creation step before the `try`, or of the `terminate` call
in the `finally` block, is not caught and propagates to the caller as a
thrown error. -/
theorem processChart_failure_containment :
    (∀ (msg : String) (ocr : Except String (List OcrWord))
        (term : Except String Unit) (img : ImageData),
      processChart (.error msg) ocr term img = .error msg) ∧
    (∀ (msg : String) (ocr : Except String (List OcrWord)) (img : ImageData),
      processChart (.ok ()) ocr (.error msg) img = .error msg) ∧
    (∀ (msg : String) (img : ImageData),
      processChart (.ok ()) (.error msg) (.ok ()) img = .ok []) ∧
    (∀ (img : ImageData) (c : ChartCandidate) (err : DetectError)
        (l₁ l₂ : List ChartCandidate),
      detectBarsForChart img c = .error err →
      processCandidates img (l₁ ++ c :: l₂) = processCandidates img (l₁ ++ l₂)) ∧
    (∀ (img : ImageData) (l : List ChartCandidate) (c : ChartCandidate)
        (d : UsageChartData),
      c ∈ l → detectBarsForChart img c = .ok d → d ∈ processCandidates img l) := by
  refine ⟨fun _ _ _ _ => rfl, ?_, fun _ _ => rfl, ?_, ?_⟩
  · intro msg ocr img
    cases ocr <;> rfl
  · intro img c err l₁ l₂ hfail
    induction l₁ with
    | nil => simp [processCandidates, hfail]
    | cons a t ih =>
        cases hda : detectBarsForChart img a <;>
          simp [processCandidates, hda, ih]
  · intro img l c d hc hok
    induction l with
    | nil => cases hc
    | cons a t ih =>
        rcases List.mem_cons.mp hc with h | h
        · subst h
          simp [processCandidates, hok]
        · cases hda : detectBarsForChart img a with
          | ok v => simp only [processCandidates, hda]; exact List.mem_cons_of_mem v (ih h)
          | error err => simp only [processCandidates, hda]; exact ih h

/-- C7 (witness): a failing candidate (`candFailC7`, no y-axis labels)
between measurable work is omitted while the measurable candidate `candC6`
still contributes its data; a caught OCR-pass failure yields `[]`; an
uncreatable worker and a failing `terminate` both propagate. -/
theorem processChart_failure_containment_witness :
    processChart (.error "engine unavailable") (.ok []) (.ok ()) imgBlank =
      .error "engine unavailable" ∧
    processChart (.ok ()) (.ok []) (.error "terminate failed") imgBlank =
      .error "terminate failed" ∧
    processChart (.ok ()) (.error "recognize failed") (.ok ()) imgBlank = .ok [] ∧
    detectBarsForChart imgBlank candFailC7 = .error (.insufficientAxis 3) ∧
    processCandidates imgBlank ([candC6] ++ candFailC7 :: []) =
      processCandidates imgBlank ([candC6] ++ []) ∧
    okC7data ∈ processCandidates imgBlank [candC6, candFailC7] := by
  refine ⟨processChart_failure_containment.1 "engine unavailable" (.ok []) (.ok ()) imgBlank,
    processChart_failure_containment.2.1 "terminate failed" (.ok []) imgBlank,
    processChart_failure_containment.2.2.1 "recognize failed" imgBlank,
    by with_unfolding_all decide,
    processChart_failure_containment.2.2.2.1 imgBlank candFailC7 (.insufficientAxis 3)
      [candC6] [] (by with_unfolding_all decide),
    processChart_failure_containment.2.2.2.2 imgBlank [candC6, candFailC7] candC6 okC7data
      (by with_unfolding_all decide) (by with_unfolding_all decide)⟩
